import Mathlib

/-!
Shallow embedding of the resource-acquisition layer of the `rqs` repository:
the search-path resolver (`src/fs/mod.rs`), the pack archive loader
(`src/fs/pack.rs`), the bounded reader (`src/fs/reader.rs`), the wad (lump)
archive loader (`src/wad/mod.rs`), the signed-widening helper
(`src/try_from_temp.rs`) and the C-string buffer decoding (`src/util.rs`).

Modelling conventions:
* paths (`PathBuf`) are lists of components (`List String`); `push` appends;
* file contents are lists of byte values (`List Nat`, each taken mod 256 when
  read as part of an integer field);
* the ambient file system is a value of type `Env`: the result of `File::open`
  at a path, and the `path.is_file()` test;
* fallible Rust functions returning `Result` become `Except Err`; Rust slice
  indexing that can panic is modelled by `PResult`, which has an explicit
  `panic` outcome distinct from ordinary errors;
* the unbounded `for i in 0..` scan over numbered pak files takes a fuel
  parameter; theorems supply enough fuel and are fuel-independent.
-/

set_option autoImplicit false

deriving instance DecidableEq for Except

namespace RQS

/-- Error values, one constructor per distinct failure site of the source. -/
inductive Err where
  /-- An underlying I/O failure (`read_exact` hitting end of file, or
  `File::open` failing inside `find_file`). -/
  | ioError
  /-- The pack header id bytes are not the pack magic (`bail!("Not a packfile header")`). -/
  | notPackHeader
  /-- `bail!("too many files ({}) in pack")`. -/
  | tooManyFiles
  /-- A fixed-width name buffer failed `CStr::from_bytes_with_nul` or UTF-8
  validation (`to_str`). -/
  | nameError
  /-- `TryFromIntError`: a negative on-disk `i32` was widened to `usize`/`u64`. -/
  | negativeInt
  /-- `bail!("Couldn't load packfile {}")` for an explicit `-path` override. -/
  | couldntLoadPackfile
  /-- The wad buffer is shorter than the wad header. -/
  | wadTooShort
  /-- The wad header id bytes are not `WAD2`. -/
  | badWadId
  /-- `bail!("Invalid lump info size")`. -/
  | badLumpInfoSize
  /-- `bail!("Invalid compression type")`. -/
  | badCompression
  /-- `bail!("Invalid lump type")`. -/
  | badLumpType
  /-- `bail!("No lump named {}")`. -/
  | noSuchLump
  /-- `bail!("Bad lump number: {}")`. -/
  | badLumpNum
  /-- Artificial: the fuel of a modelled unbounded loop ran out. -/
  | fuel
  deriving DecidableEq

/-- Why a `File::open` call failed.  The source never inspects the reason
(`Err(_)` in `Pack::load`); keeping it lets theorems quantify over it. -/
inductive FailReason where
  | notFound
  | permissionDenied
  | other
  deriving DecidableEq

/-- Result of `File::open` at a path. -/
inductive OpenOutcome where
  | fail (reason : FailReason)
  | content (bytes : List Nat)
  deriving DecidableEq

/-- A path, as a list of components (`PathBuf` with `push` = append). -/
abbrev Path := List String

/-- The ambient file system seen by the code under verification. -/
structure Env where
  /-- The outcome of `File::open` at a path (also provides a file's bytes and
  hence its `metadata().len()`). -/
  openFile : Path → OpenOutcome
  /-- The result of `path.is_file()`. -/
  isFile : Path → Bool

/-- Byte of a buffer at an index (reads come from `read_exact`-validated
slices, so the default is never load-bearing); reduced mod 256. -/
def byteAt (data : List Nat) (i : Nat) : Nat :=
  data.getD i 0 % 256

/-- `LittleEndian::read_i32` of the four bytes at `off`. -/
def readI32LE (data : List Nat) (off : Nat) : Int :=
  let v : Nat := byteAt data off + 256 * byteAt data (off + 1)
    + 65536 * byteAt data (off + 2) + 16777216 * byteAt data (off + 3)
  if v < 2147483648 then (v : Int) else (v : Int) - 4294967296

/-- `<usize as TryFromTemp<i32>>::try_from_temp` (src/try_from_temp.rs):
non-negative values widen, negative values are an error. -/
def usizeTryFromTemp (val : Int) : Except Err Nat :=
  if 0 ≤ val then .ok val.toNat else .error .negativeInt

/-- `<u64 as TryFromTemp<i32>>::try_from_temp` (src/try_from_temp.rs). -/
def u64TryFromTemp (val : Int) : Except Err Nat :=
  if 0 ≤ val then .ok val.toNat else .error .negativeInt

/-- UTF-8 decoding of a byte list (the validation performed by Rust's
`str::from_utf8` / `CStr::to_str`): rejects truncated sequences, overlong
encodings, surrogates and code points above U+10FFFF. -/
def utf8Chars : List Nat → Option (List Char)
  | [] => some []
  | b1 :: t1 =>
    if b1 < 128 then
      (utf8Chars t1).map (fun cs => Char.ofNat b1 :: cs)
    else if b1 < 194 then
      none
    else if b1 < 224 then
      match t1 with
      | b2 :: t2 =>
        if 128 ≤ b2 ∧ b2 < 192 then
          (utf8Chars t2).map (fun cs =>
            Char.ofNat ((b1 - 192) * 64 + (b2 - 128)) :: cs)
        else none
      | [] => none
    else if b1 < 240 then
      match t1 with
      | b2 :: b3 :: t3 =>
        let lo2 := if b1 = 224 then 160 else 128
        let hi2 := if b1 = 237 then 160 else 192
        if lo2 ≤ b2 ∧ b2 < hi2 ∧ 128 ≤ b3 ∧ b3 < 192 then
          (utf8Chars t3).map (fun cs =>
            Char.ofNat ((b1 - 224) * 4096 + (b2 - 128) * 64 + (b3 - 128)) :: cs)
        else none
      | _ => none
    else if b1 < 245 then
      match t1 with
      | b2 :: b3 :: b4 :: t4 =>
        let lo2 := if b1 = 240 then 144 else 128
        let hi2 := if b1 = 244 then 144 else 192
        if lo2 ≤ b2 ∧ b2 < hi2 ∧ 128 ≤ b3 ∧ b3 < 192 ∧ 128 ≤ b4 ∧ b4 < 192 then
          (utf8Chars t4).map (fun cs =>
            Char.ofNat ((b1 - 240) * 262144 + (b2 - 128) * 4096
              + (b3 - 128) * 64 + (b4 - 128)) :: cs)
        else none
      | _ => none
    else none

/-- UTF-8 decoding to a string, `none` on invalid input. -/
def utf8Decode? (l : List Nat) : Option String :=
  (utf8Chars l).map String.mk

/-- `util::cstr_buf_to_string`: take the sub-buffer up to and including the
first NUL byte (the whole buffer when there is no NUL) and decode it with
`CStr::from_bytes_with_nul` + `to_str`.  With no NUL byte anywhere,
`from_bytes_with_nul` always fails (not NUL-terminated). -/
def cstr_buf_to_string (buf : List Nat) : Except Err String :=
  match buf.findIdx? (fun c => c == 0) with
  | some i =>
    match utf8Decode? (buf.take i) with
    | some s => .ok s
    | none => .error .nameError
  | none => .error .nameError

/-- `read_exact` of `n` bytes at position `pos` of an in-memory file: errors
(with an I/O error) when fewer than `n` bytes remain. -/
def readExact (data : List Nat) (pos n : Nat) : Except Err (List Nat) :=
  if pos + n ≤ data.length then .ok ((data.drop pos).take n) else .error .ioError

/-- `pack::FileInfo`: one entry of a pack's directory (name decoded to a
string at parse time; offset was `i32` on disk, stored as `u64`; size was
`i32` on disk, stored as `usize`). -/
structure FileInfo where
  name : String
  offset : Nat
  size : Nat
  deriving DecidableEq

/-- `pack::Pack`: path of the .pak file and its parsed directory (the open
reader handle carries no parsed state and is represented by the path into
`Env`). -/
structure Pack where
  file_path : Path
  file_infos : List FileInfo
  deriving DecidableEq

/-- `pack::PackHeader`. -/
structure PackHeader where
  dir_offset : Nat
  dir_len : Nat
  deriving DecidableEq

/-- `pack::PackHeader::from`: read 12 header bytes, check the `PACK` magic,
widen the two signed directory fields rejecting negatives. -/
def PackHeader.from (data : List Nat) : Except Err PackHeader := do
  let header ← readExact data 0 12
  if header.take 4 = [80, 65, 67, 75] then
    let dir_offset ← u64TryFromTemp (readI32LE header 4)
    let dir_len ← usizeTryFromTemp (readI32LE header 8)
    .ok { dir_offset, dir_len }
  else .error .notPackHeader

/-- The name-decoding block inlined in `pack::FileInfo::from`: locate the
first NUL of the name field (taking the whole field when there is none, which
`CStr::from_bytes_with_nul` then rejects) and decode the text before it. -/
def packNameFromField (nameField : List Nat) : Except Err String :=
  match nameField.findIdx? (fun c => c == 0) with
  | some i =>
    match utf8Decode? (nameField.take i) with
    | some s => .ok s
    | none => .error .nameError
  | none => .error .nameError

/-- `pack::FileInfo::from`, acting on one 64-byte directory record: decode the
56-byte name field, then widen the signed offset and size fields. -/
def FileInfo.from (info : List Nat) : Except Err FileInfo := do
  let name ← packNameFromField (info.take 56)
  let offset ← u64TryFromTemp (readI32LE info 56)
  let size ← usizeTryFromTemp (readI32LE info 60)
  .ok { name, offset, size }

/-- The reading loop of `pack::Pack::load`: `count` 64-byte records starting
at position `pos`. -/
def readFileInfos (data : List Nat) : Nat → Nat → Except Err (List FileInfo)
  | _, 0 => .ok []
  | pos, Nat.succ n => do
    let raw ← readExact data pos 64
    let fi ← FileInfo.from raw
    let rest ← readFileInfos data (pos + 64) n
    .ok (fi :: rest)

/-- The parsing part of `pack::Pack::load`, once the file is open and its
bytes available: header, entry count `dir_len / 64`, ceiling of 2048 entries,
then the directory records read from `dir_offset`. -/
def Pack.parse (path : Path) (data : List Nat) : Except Err Pack := do
  let header ← PackHeader.from data
  let num_pack_files := header.dir_len / 64
  if num_pack_files > 2048 then .error .tooManyFiles
  else do
    let file_infos ← readFileInfos data header.dir_offset num_pack_files
    .ok { file_path := path, file_infos }

/-- `pack::Pack::load`: a failed `File::open` — for any reason, the source
matches `Err(_)` — yields `Ok(None)`; otherwise the contents are parsed and
parse failures are real errors. -/
def Pack.load (env : Env) (path : Path) : Except Err (Option Pack) :=
  match env.openFile path with
  | .fail _ => .ok none
  | .content bytes => (Pack.parse path bytes).map some

/-- `reader::FsReader`: logical length and bytes consumed so far.  The
borrowed/owned distinction and the backing handle's seek position live outside
the struct; a read call takes the backing handle's behaviour as a function
from the number of bytes requested to the `io::Read` outcome. -/
structure FsReader where
  len : Nat
  n_read : Nat
  deriving DecidableEq

/-- `FsReader::for_pack_file`: seek the pack's shared handle to the entry's
offset and bound the reader by the entry's size. -/
def FsReader.for_pack_file (info : FileInfo) : FsReader :=
  { len := info.size, n_read := 0 }

/-- `FsReader::for_file`: wrap a whole just-opened file, bounded by its
metadata length. -/
def FsReader.for_file (contentLen : Nat) : FsReader :=
  { len := contentLen, n_read := 0 }

/-- `<FsReader as Read>::read`: with `remain = len - n_read`, return 0 at
end-of-data; otherwise clip the caller's buffer to `remain`, delegate to the
backing reader (`inner`, given the clipped buffer length), and add the actual
count to `n_read` on success. -/
def FsReader.read (r : FsReader) (bufLen : Nat) (inner : Nat → Except Err Nat) :
    Except Err (Nat × FsReader) :=
  let remain := r.len - r.n_read
  if remain = 0 then .ok (0, r)
  else
    let clipped := if remain < bufLen then remain else bufLen
    match inner clipped with
    | .error e => .error e
    | .ok n => .ok (n, { r with n_read := r.n_read + n })

/-- A sequence of `read` calls, each with its own buffer size and backing
behaviour; accumulates the total number of bytes returned.  An erroring call
leaves the reader unchanged, as in the source. -/
def readMany : FsReader → List (Nat × (Nat → Except Err Nat)) → Nat × FsReader
  | r, [] => (0, r)
  | r, (bufLen, inner) :: rest =>
    match r.read bufLen inner with
    | .error _ => readMany r rest
    | .ok (n, r') =>
      let p := readMany r' rest
      (n + p.1, p.2)

/-- Outcome of an operation that, in the source, can also terminate the
process abnormally: Rust slice/index expressions panic when out of range.
`panic` is distinct from an ordinary returned `Err`. -/
inductive PResult (α : Type) where
  | ok (a : α)
  | err (e : Err)
  | panic
  deriving DecidableEq

/-- Rust slice `data[a..b]`: the sub-list when `a ≤ b ≤ data.length`, `none`
(a panic at the call site) otherwise. -/
def sliceRange (data : List Nat) (a b : Nat) : Option (List Nat) :=
  if a ≤ b ∧ b ≤ data.length then some ((data.drop a).take (b - a)) else none

/-- `wad::Compression`. -/
inductive Compression where
  | none
  | lzss
  deriving DecidableEq

/-- `wad::Compression::try_from`: 0 and 1 are the only recognised codes. -/
def Compression.tryFrom (n : Nat) : Except Err Compression :=
  match n with
  | 0 => .ok .none
  | 1 => .ok .lzss
  | _ => .error .badCompression

/-- `wad::LumpType`. -/
inductive LumpType where
  | none
  | label
  | palette
  | qtex
  | qpic
  | sound
  | miptex
  deriving DecidableEq

/-- `wad::LumpType::try_from`: the fixed set of recognised type codes. -/
def LumpType.tryFrom (n : Nat) : Except Err LumpType :=
  match n with
  | 0 => .ok .none
  | 1 => .ok .label
  | 64 => .ok .palette
  | 65 => .ok .qtex
  | 66 => .ok .qpic
  | 67 => .ok .sound
  | 68 => .ok .miptex
  | _ => .error .badLumpType

/-- `wad::LumpInfo`. -/
structure LumpInfo where
  file_pos : Nat
  disk_size : Nat
  size : Nat
  lump_type : LumpType
  compression : Compression
  name : String
  deriving DecidableEq

/-- `wad::LumpInfo::from`, acting on one 32-byte record. -/
def LumpInfo.from (data : List Nat) : Except Err LumpInfo :=
  if data.length = 32 then do
    let file_pos ← usizeTryFromTemp (readI32LE data 0)
    let disk_size ← usizeTryFromTemp (readI32LE data 4)
    let size ← usizeTryFromTemp (readI32LE data 8)
    let lump_type ← LumpType.tryFrom (byteAt data 12)
    let compression ← Compression.tryFrom (byteAt data 13)
    let name ← cstr_buf_to_string ((data.drop 16).take 16)
    .ok { file_pos, disk_size, size, lump_type, compression, name }
  else .error .badLumpInfoSize

/-- `wad::WadInfo`. -/
structure WadInfo where
  num_lumps : Nat
  lump_table_offset : Nat
  deriving DecidableEq

/-- `wad::WadInfo::from`: length and `WAD2` magic checks, then the two signed
header fields widened with negative-rejection. -/
def WadInfo.from (data : List Nat) : Except Err WadInfo :=
  if data.length < 12 then .error .wadTooShort
  else if data.take 4 = [87, 65, 68, 50] then do
    let num_lumps ← usizeTryFromTemp (readI32LE data 4)
    let lump_table_offset ← usizeTryFromTemp (readI32LE data 8)
    .ok { num_lumps, lump_table_offset }
  else .error .badWadId

/-- `wad::Wad`: the whole file in memory plus parsed header and lump table. -/
structure Wad where
  data : List Nat
  info : WadInfo
  lumps : List LumpInfo
  deriving DecidableEq

/-- The lump-table loop of `Wad::load_from_file`: records are taken with the
slice expression `data[off + i*32 .. off + i*32 + 32]`, which panics when out
of range. -/
def readLumps (data : List Nat) (off : Nat) : Nat → Nat → PResult (List LumpInfo)
  | _, 0 => .ok []
  | i, Nat.succ n =>
    match sliceRange data (off + i * 32) (off + i * 32 + 32) with
    | Option.none => .panic
    | some raw =>
      match LumpInfo.from raw with
      | .error e => .err e
      | .ok li =>
        match readLumps data off (i + 1) n with
        | .ok rest => .ok (li :: rest)
        | r => r

/-- `wad::Wad::load_from_file`, after the file-system step has produced the
file's bytes: parse the header, then each lump-table record. -/
def Wad.load (data : List Nat) : PResult Wad :=
  match WadInfo.from data with
  | .error e => .err e
  | .ok info =>
    match readLumps data info.lump_table_offset 0 info.num_lumps with
    | .err e => .err e
    | .panic => .panic
    | .ok lumps => .ok { data, info, lumps }

/-- ASCII-only lowercasing of a character, the per-unit folding of Rust's
`eq_ignore_ascii_case`. -/
def lowerAscii (c : Char) : Char :=
  if 65 ≤ c.toNat ∧ c.toNat ≤ 90 then Char.ofNat (c.toNat + 32) else c

/-- Rust's `str::eq_ignore_ascii_case`. -/
def eqIgnoreAsciiCase (s t : String) : Bool :=
  s.data.map lowerAscii == t.data.map lowerAscii

/-- `wad::Wad::lump_info`: first lump whose name matches case-insensitively,
an error when none does. -/
def Wad.lump_info (w : Wad) (name : String) : Except Err LumpInfo :=
  match w.lumps.find? (fun l => eqIgnoreAsciiCase l.name name) with
  | some l => .ok l
  | none => .error .noSuchLump

/-- `wad::Wad::data_for_lump_named`: the slice
`data[file_pos .. file_pos + disk_size]`, taken with no bounds validation —
out of range panics. -/
def Wad.data_for_lump_named (w : Wad) (name : String) : PResult (List Nat) :=
  match w.lump_info name with
  | .error e => .err e
  | .ok lump =>
    match sliceRange w.data lump.file_pos (lump.file_pos + lump.disk_size) with
    | some bs => .ok bs
    | none => .panic

/-- `wad::Wad::data_for_lump_num`: rejects only `n > num_lumps` (so
`n = num_lumps` slips past the check and the `lumps[n]` index panics), then
slices as the named accessor does. -/
def Wad.data_for_lump_num (w : Wad) (n : Nat) : PResult (List Nat) :=
  if n > w.info.num_lumps then .err .badLumpNum
  else
    match w.lumps.get? n with
    | none => .panic
    | some lump =>
      match sliceRange w.data lump.file_pos (lump.file_pos + lump.disk_size) with
      | some bs => .ok bs
      | none => .panic

/-- `fs::SearchPath`: a place to look for resources. -/
inductive SearchPath where
  | Directory (path : Path)
  | Pack (pak : RQS.Pack)
  deriving DecidableEq

/-- The startup parameters consumed by `FileSys::init` (the queries the source
makes of `parms::Parms`). -/
structure Parms where
  /-- `parms.value("-basedir")`. -/
  basedir : Option String
  /-- `parms.cwd()`. -/
  cwd : String
  /-- `parms.is_rogue()`. -/
  rogue : Bool
  /-- `parms.is_hipnotic()`. -/
  hipnotic : Bool
  /-- `parms.value("-game")`. -/
  game : Option String
  /-- `parms.values("-path")`. -/
  pathOverrides : Option (List String)
  /-- `parms.has("-proghack")`. -/
  proghack : Bool

/-- `defs::GAMENAME`. -/
def GAMENAME : String := "id1"

/-- Rust's `str::ends_with` on strings. -/
def strEndsWith (s t : String) : Bool :=
  t.data.isSuffixOf s.data

/-- The `subdir` closure of `FileSys::init`: `basedir` with one more
component pushed. -/
def subdirOf (basedir : Path) (s : String) : Path := basedir ++ [s]

/-- The path `<dir>/pak<i>.pak` probed by `FileSys::add_game_dir`. -/
def pakPath (dir : Path) (i : Nat) : Path :=
  dir ++ ["pak" ++ toString i ++ ".pak"]

/-- The `for i in 0..` loop of `FileSys::add_game_dir`: probe `pak<i>.pak`; a
load error aborts, `None` (file did not open) breaks the scan, a loaded pack
is pushed at higher priority and the scan continues.  `fuel` bounds the
unbounded source loop; theorems supply enough fuel for the break to occur. -/
def scanPaks (env : Env) (dir : Path) : Nat → Nat → List SearchPath →
    Except Err (List SearchPath)
  | 0, _, _ => .error .fuel
  | Nat.succ fuel, i, acc =>
    match Pack.load env (pakPath dir i) with
    | .error e => .error e
    | .ok Option.none => .ok acc
    | .ok (some pak) => scanPaks env dir fuel (i + 1) (acc ++ [SearchPath.Pack pak])

/-- `FileSys::add_game_dir`: push a `Directory` entry, then every numbered
pak found, then make this the main game directory.  The state is the pair
(search paths so far, game_dir). -/
def add_game_dir (env : Env) (fuel : Nat) (st : List SearchPath × Path)
    (path : Path) : Except Err (List SearchPath × Path) := do
  let sps ← scanPaks env path fuel 0 (st.1 ++ [SearchPath.Directory path])
  .ok (sps, path)

/-- The `-path` override loop of `FileSys::init`: a ".pak"-suffixed entry must
load (an unopenable pak is `bail!`ed, a malformed one propagates its parse
error); any other entry is pushed as a `Directory` with no existence check. -/
def processOverrides (env : Env) : List String → List SearchPath →
    Except Err (List SearchPath)
  | [], sps => .ok sps
  | p :: rest, sps =>
    if strEndsWith p ".pak" then
      match Pack.load env [p] with
      | .error e => .error e
      | .ok Option.none => .error .couldntLoadPackfile
      | .ok (some pak) => processOverrides env rest (sps ++ [SearchPath.Pack pak])
    else processOverrides env rest (sps ++ [SearchPath.Directory [p]])

/-- `FileSys::init` (reached through `FileSys::new` with an empty search-path
vector): the automatic stack — base game directory, mission packs, `-game`
override — followed by the `-path` override processing, which pushes onto the
automatically built stack.  Returns (search_paths, game_dir). -/
def FileSys.init (env : Env) (parms : Parms) (fuel : Nat) :
    Except Err (List SearchPath × Path) := do
  let basedir : Path := [parms.basedir.getD parms.cwd]
  let st ← add_game_dir env fuel ([], []) (subdirOf basedir GAMENAME)
  let st ← if parms.rogue then add_game_dir env fuel st (subdirOf basedir "rogue")
           else pure st
  let st ← if parms.hipnotic then add_game_dir env fuel st (subdirOf basedir "hipnotic")
           else pure st
  let st ← match parms.game with
    | some gamedir => add_game_dir env fuel st (subdirOf basedir gamedir)
    | Option.none => pure st
  match parms.pathOverrides with
  | Option.none => .ok st
  | some paths => do
    let sps ← processOverrides env paths st.1
    .ok (sps, st.2)

/-- Identifies the `FsReader` that `find_file` would hand back: either a
borrowed view into a pack's shared handle (pack path, entry offset, entry
size) or an owned reader over a whole disk file (its path and length). -/
inductive FsReaderDesc where
  | fromPack (pakFile : Path) (offset size : Nat)
  | fromDir (filePath : Path) (len : Nat)
  deriving DecidableEq

/-- Modelled from the spec: `Pack::file` is called by `FileSys::find_file`
but its definition is not among the sources; §4.2 of the specification gives
`lookup(name)` as a linear scan for the first entry whose name matches
exactly (case-sensitive), and `open_reader(entry)` as a bounded reader over
the shared handle at the entry's offset with the entry's size. -/
def Pack.file (pak : Pack) (name : String) : Option FsReaderDesc :=
  match pak.file_infos.find? (fun fi => fi.name == name) with
  | some fi => some (.fromPack pak.file_path fi.offset fi.size)
  | none => none

/-- The per-entry body of the `find_file` loop: a pack entry consults
`Pack::file`; a directory entry checks `is_file` and opens the file (an open
failure there propagates as an error). -/
def entryResult (env : Env) (name : String) : SearchPath →
    Except Err (Option FsReaderDesc)
  | .Pack pak => .ok (pak.file name)
  | .Directory dir =>
    let p := dir ++ [name]
    if env.isFile p then
      match env.openFile p with
      | .fail _ => .error .ioError
      | .content bytes => .ok (some (.fromDir p bytes.length))
    else .ok none

/-- The `find_file` loop over an already-ordered entry list: first entry that
yields the name wins; errors propagate; exhaustion is `Ok(None)`. -/
def searchEntries (env : Env) (name : String) : List SearchPath →
    Except Err (Option FsReaderDesc)
  | [] => .ok none
  | sp :: rest =>
    match entryResult env name sp with
    | .ok Option.none => searchEntries env name rest
    | r => r

/-- `FileSys::find_file`: walk the stored entries in reverse (priority)
order, skipping the single first — highest-priority — entry when the
`-proghack` flag is set. -/
def find_file (env : Env) (use_proghack : Bool) (sps : List SearchPath)
    (name : String) : Except Err (Option FsReaderDesc) :=
  searchEntries env name ((sps.reverse).drop (if use_proghack then 1 else 0))

/-! ## Concrete fixtures used by witnesses and counterexamples -/

/-- A minimal well-formed pack file: `PACK` magic, directory at offset 12 of
length 0 (no entries). -/
def minPakBytes : List Nat := [80, 65, 67, 75, 12, 0, 0, 0, 0, 0, 0, 0]

/-- An environment in which no file exists. -/
def envC1 : Env :=
  { openFile := fun _ => .fail .notFound, isFile := fun _ => false }

/-- Startup parameters with a base directory and one explicit `-path`
override naming a directory. -/
def parmsC1 : Parms :=
  { basedir := some "base", cwd := "cwd", rogue := false, hipnotic := false,
    game := none, pathOverrides := some ["over"], proghack := false }

/-- A wad file whose single lump declares the byte range `[100, 110)` of a
44-byte buffer. -/
def badWadBytes : List Nat :=
  [87, 65, 68, 50, 1, 0, 0, 0, 12, 0, 0, 0,
   100, 0, 0, 0, 10, 0, 0, 0, 10, 0, 0, 0, 0, 0, 0, 0,
   65, 0, 0, 0, 0, 0, 0, 0, 0, 0, 0, 0, 0, 0, 0, 0]

def lumpA : LumpInfo :=
  { file_pos := 100, disk_size := 10, size := 10,
    lump_type := LumpType.none, compression := Compression.none, name := "A" }

/-- The parse of `badWadBytes`. -/
def badWad : Wad :=
  { data := badWadBytes,
    info := { num_lumps := 1, lump_table_offset := 12 },
    lumps := [lumpA] }

/-! ## Theorems -/

theorem FsReader.read_spec (r : FsReader) (bufLen : Nat)
    (inner : Nat → Except Err Nat) (n : Nat) (r' : FsReader)
    (hwb : ∀ m k, inner m = .ok k → k ≤ m)
    (h : r.read bufLen inner = .ok (n, r')) :
    n ≤ min bufLen (r.len - r.n_read) ∧ r'.n_read = r.n_read + n ∧ r'.len = r.len := by
  unfold FsReader.read at h
  by_cases h0 : r.len - r.n_read = 0
  · rw [if_pos h0] at h
    injection h with h
    injection h with h1 h2
    subst h1; subst h2
    exact ⟨Nat.zero_le _, by omega, rfl⟩
  · rw [if_neg h0] at h
    simp only [] at h
    cases hi : inner (if r.len - r.n_read < bufLen then r.len - r.n_read else bufLen) with
    | error e => rw [hi] at h; exact absurd h (by simp)
    | ok k =>
      rw [hi] at h
      injection h with h
      injection h with h1 h2
      subst h1; subst h2
      have hk := hwb _ _ hi
      refine ⟨?_, rfl, rfl⟩
      by_cases hlt : r.len - r.n_read < bufLen
      · rw [if_pos hlt] at hk
        have : min bufLen (r.len - r.n_read) = r.len - r.n_read :=
          Nat.min_eq_right (by omega)
        omega
      · rw [if_neg hlt] at hk
        have : min bufLen (r.len - r.n_read) = bufLen :=
          Nat.min_eq_left (by omega)
        omega

theorem readMany_le (r : FsReader) (calls : List (Nat × (Nat → Except Err Nat)))
    (hwb : ∀ c ∈ calls, ∀ m k, c.2 m = .ok k → k ≤ m) :
    (readMany r calls).1 ≤ r.len - r.n_read := by
  induction calls generalizing r with
  | nil => simp [readMany]
  | cons c rest ih =>
    obtain ⟨bufLen, inner⟩ := c
    have hhd : ∀ m k, inner m = .ok k → k ≤ m :=
      hwb _ (List.mem_cons_self _ _)
    have htl := fun c hc => hwb c (List.mem_cons_of_mem _ hc)
    unfold readMany
    cases hr : r.read bufLen inner with
    | error e => exact ih r htl
    | ok p =>
      obtain ⟨n, r'⟩ := p
      obtain ⟨hn, hnr, hlen⟩ := FsReader.read_spec r bufLen inner n r' hhd hr
      have := ih r' htl
      simp only
      omega

/-- C3: a bounded reader of logical length `len` returns 0 at end-of-data
(`remaining = 0`), otherwise returns at most `min (buffer length) remaining`
bytes and advances `n_read` by exactly the returned amount; consequently the
total returned over any sequence of read calls with well-behaved backing
reads never exceeds the constructed length, whatever the buffer sizes and
however many bytes the backing handle could physically supply. -/
theorem c3_bounded_reader :
    (∀ (r : FsReader) (bufLen : Nat) (inner : Nat → Except Err Nat),
      r.len - r.n_read = 0 → r.read bufLen inner = .ok (0, r)) ∧
    (∀ (r : FsReader) (bufLen : Nat) (inner : Nat → Except Err Nat) (n : Nat)
      (r' : FsReader), (∀ m k, inner m = .ok k → k ≤ m) →
      r.read bufLen inner = .ok (n, r') →
      n ≤ min bufLen (r.len - r.n_read) ∧ r'.n_read = r.n_read + n ∧ r'.len = r.len) ∧
    (∀ (r : FsReader) (calls : List (Nat × (Nat → Except Err Nat))),
      (∀ c ∈ calls, ∀ m k, c.2 m = .ok k → k ≤ m) →
      (readMany r calls).1 ≤ r.len - r.n_read) ∧
    (∀ (info : FileInfo) (calls : List (Nat × (Nat → Except Err Nat))),
      (∀ c ∈ calls, ∀ m k, c.2 m = .ok k → k ≤ m) →
      (readMany (FsReader.for_pack_file info) calls).1 ≤ info.size) := by
  refine ⟨?_, FsReader.read_spec, readMany_le, ?_⟩
  · intro r bufLen inner h0
    unfold FsReader.read
    simp [h0]
  · intro info calls hwb
    simpa [FsReader.for_pack_file] using readMany_le (FsReader.for_pack_file info) calls hwb

/-- C3 witness: a bounded reader of length 10 over a pack entry (the backing
handle happily supplies every byte requested, as a 1000-byte physical file
would) yields at most 10 bytes across two reads with 1000-byte buffers. -/
theorem c3_bounded_reader_witness :
    (readMany (FsReader.for_pack_file { name := "sound/items/r_item1.wav", offset := 100, size := 10 })
      [(1000, fun m => .ok m), (1000, fun m => .ok m)]).1 ≤ 10 := by
  refine c3_bounded_reader.2.2.2 _ _ ?_
  intro c hc m k h
  simp only [List.mem_cons, List.not_mem_nil, or_false] at hc
  rcases hc with rfl | rfl <;> exact le_of_eq (Except.ok.inj h).symm

theorem usizeTryFromTemp_neg (v : Int) (h : v < 0) :
    usizeTryFromTemp v = .error .negativeInt := by
  unfold usizeTryFromTemp
  rw [if_neg (by omega)]

theorem usizeTryFromTemp_nonneg (v : Int) (h : 0 ≤ v) :
    usizeTryFromTemp v = .ok v.toNat := by
  unfold usizeTryFromTemp
  rw [if_pos h]

theorem u64TryFromTemp_neg (v : Int) (h : v < 0) :
    u64TryFromTemp v = .error .negativeInt := by
  unfold u64TryFromTemp
  rw [if_neg (by omega)]

theorem WadInfo.from_neg_count (data : List Nat) (h : readI32LE data 4 < 0) :
    ∃ e, WadInfo.from data = .error e := by
  unfold WadInfo.from
  by_cases h1 : data.length < 12
  · exact ⟨_, by rw [if_pos h1]⟩
  · rw [if_neg h1]
    by_cases h2 : data.take 4 = [87, 65, 68, 50]
    · rw [if_pos h2]
      refine ⟨.negativeInt, ?_⟩
      simp only [bind, Except.bind]
      rw [usizeTryFromTemp_neg _ h]
    · exact ⟨_, by rw [if_neg h2]⟩

theorem Wad.load_neg_count (data : List Nat) (h : readI32LE data 4 < 0) :
    ∃ e, Wad.load data = .err e := by
  obtain ⟨e, he⟩ := WadInfo.from_neg_count data h
  exact ⟨e, by unfold Wad.load; rw [he]⟩

theorem packHeader_parse_neg (data : List Nat)
    (h : readI32LE data 4 < 0 ∨ readI32LE data 8 < 0) :
    ∃ e, PackHeader.from data = .error e := by
  unfold PackHeader.from
  simp only [bind, Except.bind]
  by_cases h1 : 0 + 12 ≤ data.length
  · have hre : readExact data 0 12 = Except.ok (data.take 12) := by
      unfold readExact
      rw [if_pos h1, List.drop_zero]
    simp only [hre]
    have h4 : readI32LE (data.take 12) 4 = readI32LE data 4 := by
      unfold readI32LE byteAt
      rw [List.getD_eq_getElem?_getD, List.getD_eq_getElem?_getD,
        List.getD_eq_getElem?_getD, List.getD_eq_getElem?_getD,
        List.getD_eq_getElem?_getD, List.getD_eq_getElem?_getD,
        List.getD_eq_getElem?_getD, List.getD_eq_getElem?_getD,
        List.getElem?_take_of_lt (by omega), List.getElem?_take_of_lt (by omega),
        List.getElem?_take_of_lt (by omega), List.getElem?_take_of_lt (by omega)]
    have h8 : readI32LE (data.take 12) 8 = readI32LE data 8 := by
      unfold readI32LE byteAt
      rw [List.getD_eq_getElem?_getD, List.getD_eq_getElem?_getD,
        List.getD_eq_getElem?_getD, List.getD_eq_getElem?_getD,
        List.getD_eq_getElem?_getD, List.getD_eq_getElem?_getD,
        List.getD_eq_getElem?_getD, List.getD_eq_getElem?_getD,
        List.getElem?_take_of_lt (by omega), List.getElem?_take_of_lt (by omega),
        List.getElem?_take_of_lt (by omega), List.getElem?_take_of_lt (by omega)]
    by_cases h2 : (data.take 12).take 4 = [80, 65, 67, 75]
    · rw [if_pos h2]
      rcases h with h | h
      · refine ⟨.negativeInt, ?_⟩
        rw [h4, u64TryFromTemp_neg _ h]
      · cases ho : u64TryFromTemp (readI32LE (data.take 12) 4) with
        | error e => exact ⟨e, rfl⟩
        | ok off =>
          refine ⟨.negativeInt, ?_⟩
          rw [h8, usizeTryFromTemp_neg _ h]
    · exact ⟨.notPackHeader, by rw [if_neg h2]⟩
  · have hre : readExact data 0 12 = Except.error .ioError := by
      unfold readExact
      rw [if_neg h1]
    exact ⟨.ioError, by simp only [hre]⟩

theorem fileInfo_parse_neg (raw : List Nat)
    (h : readI32LE raw 56 < 0 ∨ readI32LE raw 60 < 0) :
    ∃ e, FileInfo.from raw = .error e := by
  unfold FileInfo.from
  simp only [bind, Except.bind]
  cases hn : packNameFromField (raw.take 56) with
  | error e => exact ⟨e, rfl⟩
  | ok s =>
    rcases h with h | h
    · exact ⟨.negativeInt, by rw [u64TryFromTemp_neg _ h]⟩
    · cases ho : u64TryFromTemp (readI32LE raw 56) with
      | error e => exact ⟨e, rfl⟩
      | ok off =>
        refine ⟨.negativeInt, ?_⟩
        rw [usizeTryFromTemp_neg _ h]

theorem lumpInfo_parse_neg (raw : List Nat)
    (h : readI32LE raw 0 < 0 ∨ readI32LE raw 4 < 0 ∨ readI32LE raw 8 < 0) :
    ∃ e, LumpInfo.from raw = .error e := by
  unfold LumpInfo.from
  by_cases hl : raw.length = 32
  · rw [if_pos hl]
    simp only [bind, Except.bind]
    rcases h with h | h
    · exact ⟨.negativeInt, by rw [usizeTryFromTemp_neg _ h]⟩
    · cases h0 : usizeTryFromTemp (readI32LE raw 0) with
      | error e => exact ⟨e, rfl⟩
      | ok fp =>
        rcases h with h | h
        · exact ⟨.negativeInt, by rw [usizeTryFromTemp_neg _ h]⟩
        · cases h4 : usizeTryFromTemp (readI32LE raw 4) with
          | error e => exact ⟨e, rfl⟩
          | ok ds =>
            exact ⟨.negativeInt, by rw [usizeTryFromTemp_neg _ h]⟩
  · exact ⟨.badLumpInfoSize, by rw [if_neg hl]⟩

/-- C9: every on-disk signed 32-bit field that the code widens to an
unsigned value — the pack directory offset and length, pack entry offset and
size, wad lump count and table offset, and lump file position and sizes —
passes through `try_from_temp`, which maps non-negative values to themselves
(no wraparound) and rejects negative values with an error; in particular a
wad whose lump-count field is negative fails to load. -/
theorem c9_negative_widening_rejected :
    (∀ v : Int, v < 0 → usizeTryFromTemp v = .error .negativeInt) ∧
    (∀ v : Int, 0 ≤ v → usizeTryFromTemp v = .ok v.toNat) ∧
    (∀ v : Int, v < 0 → u64TryFromTemp v = .error .negativeInt) ∧
    (∀ data : List Nat, readI32LE data 4 < 0 → ∃ e, Wad.load data = .err e) ∧
    (∀ data : List Nat, readI32LE data 4 < 0 ∨ readI32LE data 8 < 0 →
      ∃ e, PackHeader.from data = .error e) ∧
    (∀ raw : List Nat, readI32LE raw 56 < 0 ∨ readI32LE raw 60 < 0 →
      ∃ e, FileInfo.from raw = .error e) ∧
    (∀ raw : List Nat, readI32LE raw 0 < 0 ∨ readI32LE raw 4 < 0 ∨ readI32LE raw 8 < 0 →
      ∃ e, LumpInfo.from raw = .error e) :=
  ⟨usizeTryFromTemp_neg, usizeTryFromTemp_nonneg, u64TryFromTemp_neg,
    Wad.load_neg_count, packHeader_parse_neg, fileInfo_parse_neg, lumpInfo_parse_neg⟩

/-- C9 witness: widening rejects -7; a wad file whose lump-count bytes decode
to -1 fails to load. -/
theorem c9_negative_widening_rejected_witness :
    (usizeTryFromTemp (-7) = .error .negativeInt) ∧
    (∃ e, Wad.load [87, 65, 68, 50, 255, 255, 255, 255, 12, 0, 0, 0] = .err e) :=
  ⟨c9_negative_widening_rejected.1 (-7) (by decide),
    c9_negative_widening_rejected.2.2.2.1
      [87, 65, 68, 50, 255, 255, 255, 255, 12, 0, 0, 0] (by decide)⟩

theorem packNameFromField_eq_cstr (buf : List Nat) :
    packNameFromField buf = cstr_buf_to_string buf := rfl

theorem cstr_buf_to_string_some (buf : List Nat) (i : Nat)
    (h : buf.findIdx? (fun c => c == 0) = some i) :
    cstr_buf_to_string buf =
      (match utf8Decode? (buf.take i) with
        | some s => .ok s
        | none => .error .nameError) := by
  unfold cstr_buf_to_string
  rw [h]

theorem cstr_buf_to_string_none (buf : List Nat)
    (h : buf.findIdx? (fun c => c == 0) = none) :
    cstr_buf_to_string buf = .error .nameError := by
  unfold cstr_buf_to_string
  rw [h]

/-- C4 (corrected): for both fixed-width name fields (the 56-byte pack field,
decoded by the block embodied in `packNameFromField`, and any field handed to
`cstr_buf_to_string`, such as the 16-byte lump field), the result is computed
solely from the bytes strictly before the first NUL — bytes after it are
ignored — and is that text when it decodes as UTF-8; but a field with no NUL
byte anywhere is always an error, even when the whole field is valid text. -/
theorem c4_name_field_parsing :
    (∀ (buf : List Nat) (i : Nat), buf.findIdx? (fun c => c == 0) = some i →
      cstr_buf_to_string buf =
        (match utf8Decode? (buf.take i) with
          | some s => .ok s
          | none => .error .nameError)) ∧
    (∀ buf : List Nat, buf.findIdx? (fun c => c == 0) = none →
      cstr_buf_to_string buf = .error .nameError) ∧
    (∀ (buf bufB : List Nat) (i : Nat), buf.findIdx? (fun c => c == 0) = some i →
      bufB.findIdx? (fun c => c == 0) = some i → buf.take i = bufB.take i →
      cstr_buf_to_string buf = cstr_buf_to_string bufB) ∧
    (∀ raw : List Nat, FileInfo.from raw = do
      let name ← cstr_buf_to_string (raw.take 56)
      let offset ← u64TryFromTemp (readI32LE raw 56)
      let size ← usizeTryFromTemp (readI32LE raw 60)
      Except.ok { name, offset, size }) := by
  refine ⟨cstr_buf_to_string_some, cstr_buf_to_string_none, ?_, fun _ => rfl⟩
  intro buf bufB i h1 h2 h3
  rw [cstr_buf_to_string_some buf i h1, cstr_buf_to_string_some bufB i h2, h3]

/-- C4 witness: a NUL-terminated field decodes to the text before the NUL
(trailing junk ignored); a field without any NUL is an error. -/
theorem c4_name_field_parsing_witness :
    cstr_buf_to_string [97, 0, 255] = .ok "a" ∧
    cstr_buf_to_string [98, 99] = .error .nameError :=
  ⟨(c4_name_field_parsing.1 [97, 0, 255] 1 rfl).trans rfl,
    c4_name_field_parsing.2.1 [98, 99] rfl⟩

/-- C4 counterexample: a name field made of 16 (or 56) `a` bytes and no NUL is
valid text, yet both the 16-byte-field decoder and the pack directory-record
parse reject it with an error, where the claim demands the full field be taken
as the name. -/
theorem c4_name_field_parsing_counterexample :
    utf8Decode? (List.replicate 16 97) = some "aaaaaaaaaaaaaaaa" ∧
    cstr_buf_to_string (List.replicate 16 97) = .error .nameError ∧
    FileInfo.from (List.replicate 56 97 ++ List.replicate 8 0) =
      .error .nameError :=
  ⟨rfl, rfl, rfl⟩

theorem Wad.data_for_lump_named_absent (w : Wad) (name : String)
    (h : w.lumps.find? (fun l => eqIgnoreAsciiCase l.name name) = none) :
    w.data_for_lump_named name = .err .noSuchLump := by
  unfold Wad.data_for_lump_named Wad.lump_info
  rw [h]

theorem Wad.data_for_lump_named_in_range (w : Wad) (name : String) (l : LumpInfo)
    (hl : w.lump_info name = .ok l)
    (hr : l.file_pos + l.disk_size ≤ w.data.length) :
    w.data_for_lump_named name = .ok ((w.data.drop l.file_pos).take l.disk_size) := by
  unfold Wad.data_for_lump_named
  simp only [hl]
  have hs : sliceRange w.data l.file_pos (l.file_pos + l.disk_size) =
      some ((w.data.drop l.file_pos).take l.disk_size) := by
    unfold sliceRange
    rw [if_pos ⟨Nat.le_add_right _ _, hr⟩, Nat.add_sub_cancel_left]
  rw [hs]

theorem Wad.data_for_lump_named_out_of_range (w : Wad) (name : String) (l : LumpInfo)
    (hl : w.lump_info name = .ok l)
    (hr : w.data.length < l.file_pos + l.disk_size) :
    w.data_for_lump_named name = .panic := by
  unfold Wad.data_for_lump_named
  simp only [hl]
  have hs : sliceRange w.data l.file_pos (l.file_pos + l.disk_size) = none := by
    unfold sliceRange
    rw [if_neg (by omega)]
  rw [hs]

/-- C2 (corrected): the lump data accessors return an `Err` for an absent
name or an index strictly greater than the lump count, and the in-memory
slice when `[file_pos, file_pos + disk_size)` happens to lie inside the
buffer; but no bounds validation is performed before slicing — a lump whose
range exceeds the loaded buffer, or the index `num_lumps` itself (which slips
past the `n > num_lumps` check), causes an out-of-bounds panic rather than an
`Err`. -/
theorem c2_lump_data_access :
    (∀ (w : Wad) (name : String),
      w.lumps.find? (fun l => eqIgnoreAsciiCase l.name name) = none →
      w.data_for_lump_named name = .err .noSuchLump) ∧
    (∀ (w : Wad) (name : String) (l : LumpInfo), w.lump_info name = .ok l →
      l.file_pos + l.disk_size ≤ w.data.length →
      w.data_for_lump_named name = .ok ((w.data.drop l.file_pos).take l.disk_size)) ∧
    (∀ (w : Wad) (name : String) (l : LumpInfo), w.lump_info name = .ok l →
      w.data.length < l.file_pos + l.disk_size →
      w.data_for_lump_named name = .panic) ∧
    (∀ (w : Wad) (n : Nat), w.info.num_lumps < n →
      w.data_for_lump_num n = .err .badLumpNum) ∧
    (∀ w : Wad, w.lumps.length = w.info.num_lumps →
      w.data_for_lump_num w.info.num_lumps = .panic) := by
  refine ⟨Wad.data_for_lump_named_absent, Wad.data_for_lump_named_in_range,
    Wad.data_for_lump_named_out_of_range, ?_, ?_⟩
  · intro w n h
    unfold Wad.data_for_lump_num
    rw [if_pos h]
  · intro w hlen
    unfold Wad.data_for_lump_num
    rw [if_neg (by omega), List.get?_eq_none.mpr (le_of_eq hlen)]

def wadOkBytes : List Nat :=
  [87, 65, 68, 50, 1, 0, 0, 0, 12, 0, 0, 0,
   0, 0, 0, 0, 4, 0, 0, 0, 4, 0, 0, 0, 0, 0, 0, 0,
   66, 0, 0, 0, 0, 0, 0, 0, 0, 0, 0, 0, 0, 0, 0, 0]

def lumpB : LumpInfo :=
  { file_pos := 0, disk_size := 4, size := 4,
    lump_type := LumpType.none, compression := Compression.none, name := "B" }

def wadOk : Wad :=
  { data := wadOkBytes,
    info := { num_lumps := 1, lump_table_offset := 12 },
    lumps := [lumpB] }

/-- C2 witness: on a loaded wad, an absent name and a too-large index are
`Err`s; an in-range lump (queried case-insensitively) yields its slice; the
index equal to the lump count panics. -/
theorem c2_lump_data_access_witness :
    Wad.load wadOkBytes = .ok wadOk ∧
    wadOk.data_for_lump_named "nosuch" = .err .noSuchLump ∧
    wadOk.data_for_lump_named "b" = .ok [87, 65, 68, 50] ∧
    wadOk.data_for_lump_num 5 = .err .badLumpNum ∧
    wadOk.data_for_lump_num 1 = .panic :=
  ⟨rfl,
    c2_lump_data_access.1 wadOk "nosuch" rfl,
    (c2_lump_data_access.2.1 wadOk "b" lumpB rfl (by decide)).trans rfl,
    c2_lump_data_access.2.2.2.1 wadOk 5 (by decide),
    c2_lump_data_access.2.2.2.2 wadOk rfl⟩

/-- C2 counterexample: `badWadBytes` loads successfully into `badWad`, whose
single lump `A` declares the range `[100, 110)` inside a 44-byte buffer; both
accessors then terminate abnormally (out-of-bounds slice / index) instead of
returning an `Err`, refuting the claim that bounds are validated before
slicing. -/
theorem c2_lump_data_access_counterexample :
    Wad.load badWadBytes = .ok badWad ∧
    badWad.data_for_lump_named "A" = .panic ∧
    badWad.data_for_lump_num 1 = .panic :=
  ⟨rfl, rfl, rfl⟩

theorem Pack.load_open_fail (env : Env) (path : Path) (r : FailReason)
    (h : env.openFile path = .fail r) : Pack.load env path = .ok none := by
  unfold Pack.load
  rw [h]

theorem add_game_dir_first_pak_open_fail (env : Env) (dir : Path) (fuel : Nat)
    (st : List SearchPath × Path) (r : FailReason)
    (h : env.openFile (pakPath dir 0) = .fail r) (hf : 0 < fuel) :
    add_game_dir env fuel st dir = .ok (st.1 ++ [SearchPath.Directory dir], dir) := by
  cases fuel with
  | zero => omega
  | succ f =>
    unfold add_game_dir
    simp only [bind, Except.bind]
    have hs : scanPaks env dir (f + 1) 0 (st.1 ++ [SearchPath.Directory dir]) =
        .ok (st.1 ++ [SearchPath.Directory dir]) := by
      unfold scanPaks
      rw [Pack.load_open_fail env (pakPath dir 0) r h]
    rw [hs]

/-- C10: `Pack::load` maps any failed `File::open` — whatever the reason, the
source matches `Err(_)` — to the benign `Ok(None)`; inside the numbered-pak
scan of `add_game_dir` such a failure therefore ends the scan silently with
no archive entry and no error, making an unreadable pak indistinguishable
from a missing one. -/
theorem c10_open_failure_is_benign_absence :
    (∀ (env : Env) (path : Path) (r : FailReason),
      env.openFile path = .fail r → Pack.load env path = .ok none) ∧
    (∀ (env : Env) (dir : Path) (fuel : Nat) (st : List SearchPath × Path)
      (r : FailReason), env.openFile (pakPath dir 0) = .fail r → 0 < fuel →
      add_game_dir env fuel st dir = .ok (st.1 ++ [SearchPath.Directory dir], dir)) :=
  ⟨Pack.load_open_fail, add_game_dir_first_pak_open_fail⟩

/-- An environment in which every open fails with a permission error (files
may well exist but are unreadable). -/
def envDenied : Env :=
  { openFile := fun _ => .fail .permissionDenied, isFile := fun _ => false }

/-- C10 witness: an existing-but-unreadable pak behaves exactly like a
missing one — `load` yields `None` and the scan ends with the directory entry
alone, without error. -/
theorem c10_open_failure_is_benign_absence_witness :
    Pack.load envDenied ["game", "pak0.pak"] = .ok none ∧
    add_game_dir envDenied 4 ([], []) ["game"] =
      .ok ([SearchPath.Directory ["game"]], ["game"]) :=
  ⟨c10_open_failure_is_benign_absence.1 envDenied ["game", "pak0.pak"]
      .permissionDenied rfl,
    c10_open_failure_is_benign_absence.2 envDenied ["game"] 4 ([], [])
      .permissionDenied rfl (by omega)⟩

/-- Startup parameters whose explicit `-path` override names a directory that
does not exist in `envC1`. -/
def parmsC7 : Parms :=
  { basedir := some "base", cwd := "cwd", rogue := false, hipnotic := false,
    game := none, pathOverrides := some ["missingdir"], proghack := false }

/-- C7 counterexample: with an explicit `-path` override naming a nonexistent
directory (`envC1` has no files at all), resolver construction succeeds and
pushes the directory entry, where the claim requires a loud error for
directory entries as well. -/
theorem c7_explicit_override_counterexample :
    FileSys.init envC1 parmsC7 4 =
      .ok ([SearchPath.Directory ["base", "id1"],
        SearchPath.Directory ["missingdir"]], ["base", "id1"]) := by rfl

/-- C7 (corrected): in the explicit `-path` override loop, an entry ending in
`.pak` whose open fails is a fatal error (distinct from the benign absence of
the automatic scan); but a non-`.pak` entry is pushed as a `Directory` with
no existence check whatsoever, so a missing directory is accepted silently. -/
theorem c7_explicit_override_checks_only_archives :
    (∀ (env : Env) (s : String) (rest : List String) (sps : List SearchPath)
      (r : FailReason), strEndsWith s ".pak" = true → env.openFile [s] = .fail r →
      processOverrides env (s :: rest) sps = .error .couldntLoadPackfile) ∧
    (∀ (env : Env) (s : String) (rest : List String) (sps : List SearchPath),
      strEndsWith s ".pak" = false →
      processOverrides env (s :: rest) sps =
        processOverrides env rest (sps ++ [SearchPath.Directory [s]])) := by
  constructor
  · intro env s rest sps r h1 h2
    unfold processOverrides
    rw [if_pos h1, Pack.load_open_fail env [s] r h2]
  · intro env s rest sps h1
    simp only [processOverrides]
    rw [if_neg (by simp [h1])]

/-- C7 witness: a missing `.pak` override aborts construction; a missing
directory override is pushed without complaint. -/
theorem c7_explicit_override_checks_only_archives_witness :
    processOverrides envC1 ["x.pak"] [] = .error .couldntLoadPackfile ∧
    processOverrides envC1 ["dir"] [] =
      processOverrides envC1 [] [SearchPath.Directory ["dir"]] :=
  ⟨c7_explicit_override_checks_only_archives.1 envC1 "x.pak" [] [] .notFound rfl rfl,
    c7_explicit_override_checks_only_archives.2 envC1 "dir" [] [] rfl⟩

/-- C1 (code bug): at the concrete failing input — base directory `base`, no
mission packs, explicit `-path` override `["over"]`, no pak files anywhere —
`FileSys::init` keeps the automatically built entry `Directory base/id1`
beneath the override entry instead of replacing the stack, so the resulting
search paths are not the override list alone. -/
theorem c1_explicit_override_keeps_automatic_stack :
    FileSys.init envC1 parmsC1 4 =
      .ok ([SearchPath.Directory ["base", "id1"], SearchPath.Directory ["over"]],
        ["base", "id1"]) ∧
    (FileSys.init envC1 parmsC1 4).map Prod.fst ≠
      .ok [SearchPath.Directory ["over"]] :=
  ⟨rfl, by decide⟩

theorem scanPaks_complete (env : Env) (dir : Path) (k : Nat) (loads : Nat → Pack)
    (hl : ∀ i, i < k → Pack.load env (pakPath dir i) = .ok (some (loads i)))
    (hk : Pack.load env (pakPath dir k) = .ok none) :
    ∀ (fuel i : Nat) (acc : List SearchPath), i ≤ k → k - i < fuel →
      scanPaks env dir fuel i acc =
        .ok (acc ++ (List.range' i (k - i)).map (fun j => SearchPath.Pack (loads j))) := by
  intro fuel
  induction fuel with
  | zero => intro i acc h1 h2; exact absurd h2 (by omega)
  | succ f ih =>
    intro i acc h1 h2
    by_cases hik : i = k
    · subst hik
      unfold scanPaks
      rw [hk]
      simp
    · have hlt : i < k := by omega
      unfold scanPaks
      simp only [hl i hlt]
      rw [ih (i + 1) (acc ++ [SearchPath.Pack (loads i)]) (by omega) (by omega),
        show k - i = (k - (i + 1)) + 1 by omega, List.range'_succ]
      simp

theorem scanPaks_abort (env : Env) (dir : Path) (j : Nat) (e : Err)
    (loads : Nat → Pack)
    (hl : ∀ i, i < j → Pack.load env (pakPath dir i) = .ok (some (loads i)))
    (hj : Pack.load env (pakPath dir j) = .error e) :
    ∀ (fuel i : Nat) (acc : List SearchPath), i ≤ j → j - i < fuel →
      scanPaks env dir fuel i acc = .error e := by
  intro fuel
  induction fuel with
  | zero => intro i acc h1 h2; exact absurd h2 (by omega)
  | succ f ih =>
    intro i acc h1 h2
    by_cases hij : i = j
    · subst hij
      unfold scanPaks
      rw [hj]
    · have hlt : i < j := by omega
      unfold scanPaks
      simp only [hl i hlt]
      exact ih (i + 1) (acc ++ [SearchPath.Pack (loads i)]) (by omega) (by omega)

/-- C5: `add_game_dir` pushes the `Directory` entry and then, for indices
0, 1, 2, …, each successfully loaded `pak<i>.pak` in index order at higher
priority (later in the stored list); the first index whose open fails ends
the scan without error, so a directory with paks exactly at `0..k-1`
contributes exactly `k` archive entries; a pak that opens but fails to parse
propagates its error, aborting construction. -/
theorem c5_numbered_pak_scan :
    (∀ (env : Env) (dir : Path) (st : List SearchPath × Path) (k fuel : Nat)
      (loads : Nat → Pack),
      (∀ i, i < k → Pack.load env (pakPath dir i) = .ok (some (loads i))) →
      Pack.load env (pakPath dir k) = .ok none → k < fuel →
      add_game_dir env fuel st dir =
        .ok (st.1 ++ [SearchPath.Directory dir]
          ++ (List.range k).map (fun i => SearchPath.Pack (loads i)), dir)) ∧
    (∀ (env : Env) (dir : Path) (st : List SearchPath × Path) (j fuel : Nat)
      (e : Err) (loads : Nat → Pack),
      (∀ i, i < j → Pack.load env (pakPath dir i) = .ok (some (loads i))) →
      Pack.load env (pakPath dir j) = .error e → j < fuel →
      add_game_dir env fuel st dir = .error e) := by
  constructor
  · intro env dir st k fuel loads hl hk hf
    unfold add_game_dir
    simp only [bind, Except.bind]
    rw [scanPaks_complete env dir k loads hl hk fuel 0
      (st.1 ++ [SearchPath.Directory dir]) (by omega) (by omega)]
    simp [List.range_eq_range']
  · intro env dir st j fuel e loads hl hj hf
    unfold add_game_dir
    simp only [bind, Except.bind]
    rw [scanPaks_abort env dir j e loads hl hj fuel 0
      (st.1 ++ [SearchPath.Directory dir]) (by omega) (by omega)]

/-- The parse of `minPakBytes` at `d/pak0.pak`. -/
def minPak : Pack := { file_path := ["d", "pak0.pak"], file_infos := [] }

/-- An environment with exactly one pak file, `d/pak0.pak`, holding a
well-formed empty pack. -/
def envScan : Env :=
  { openFile := fun p =>
      if p = ["d", "pak0.pak"] then .content minPakBytes else .fail .notFound,
    isFile := fun _ => false }

/-- An environment whose `d/pak0.pak` opens but holds garbage that fails to
parse. -/
def envScanBad : Env :=
  { openFile := fun p =>
      if p = ["d", "pak0.pak"] then .content [1, 2, 3] else .fail .notFound,
    isFile := fun _ => false }

/-- C5 witness: a directory with exactly `pak0.pak` contributes one archive
entry above the directory entry and the missing `pak1.pak` ends the scan;
a malformed `pak0.pak` aborts with the parse error. -/
theorem c5_numbered_pak_scan_witness :
    add_game_dir envScan 4 ([], []) ["d"] =
      .ok ([SearchPath.Directory ["d"], SearchPath.Pack minPak], ["d"]) ∧
    add_game_dir envScanBad 4 ([], []) ["d"] = .error .ioError := by
  constructor
  · have h := c5_numbered_pak_scan.1 envScan ["d"] ([], []) 1 4 (fun _ => minPak)
      (by decide) (by rfl) (by omega)
    simpa using h
  · exact c5_numbered_pak_scan.2 envScanBad ["d"] ([], []) 0 4 .ioError
      (fun _ => minPak) (by omega) (by rfl) (by omega)

theorem searchEntries_all_none (env : Env) (name : String) (l : List SearchPath)
    (h : ∀ sp ∈ l, entryResult env name sp = .ok none) :
    searchEntries env name l = .ok none := by
  induction l with
  | nil => rfl
  | cons sp rest ih =>
    unfold searchEntries
    simp only [h sp (List.mem_cons_self _ _)]
    exact ih fun x hx => h x (List.mem_cons_of_mem _ hx)

theorem searchEntries_append_none (env : Env) (name : String)
    (lA lB : List SearchPath) (h : ∀ sp ∈ lA, entryResult env name sp = .ok none) :
    searchEntries env name (lA ++ lB) = searchEntries env name lB := by
  induction lA with
  | nil => rfl
  | cons sp rest ih =>
    rw [List.cons_append]
    simp only [searchEntries, h sp (List.mem_cons_self _ _)]
    exact ih fun x hx => h x (List.mem_cons_of_mem _ hx)

theorem searchEntries_cons_hit (env : Env) (name : String) (sp : SearchPath)
    (rest : List SearchPath) (d : FsReaderDesc)
    (h : entryResult env name sp = .ok (some d)) :
    searchEntries env name (sp :: rest) = .ok (some d) := by
  unfold searchEntries
  simp only [h]

theorem find_file_all_none (env : Env) (name : String) (sps : List SearchPath)
    (h : ∀ sp ∈ sps, entryResult env name sp = .ok none) :
    find_file env false sps name = .ok none :=
  searchEntries_all_none env name sps.reverse
    fun sp hx => h sp (List.mem_reverse.mp hx)

theorem find_file_highest_hit (env : Env) (name : String)
    (pre : List SearchPath) (sp : SearchPath) (post : List SearchPath)
    (d : FsReaderDesc) (hhit : entryResult env name sp = .ok (some d))
    (hpost : ∀ x ∈ post, entryResult env name x = .ok none) :
    find_file env false (pre ++ sp :: post) name = .ok (some d) := by
  show searchEntries env name ((pre ++ sp :: post).reverse) = _
  rw [List.reverse_append, List.reverse_cons, List.append_assoc,
    searchEntries_append_none env name post.reverse _
      (fun x hx => hpost x (List.mem_reverse.mp hx))]
  exact searchEntries_cons_hit env name sp pre.reverse d hhit

/-- C6: resolution walks the stored entry stack from its end (highest
priority, reverse of build order): when no entry yields the name the result
is `Ok(None)` — not an error; when an entry yields the name and every entry
stored after it (i.e. of higher priority) yields nothing, that entry's result
is returned; in particular a name found in a pack pushed directly above its
containing directory — the shape `add_game_dir` builds — resolves to the
pack's copy, whatever the directory holds. -/
theorem c6_resolution_order :
    (∀ (env : Env) (name : String) (sps : List SearchPath),
      (∀ sp ∈ sps, entryResult env name sp = .ok none) →
      find_file env false sps name = .ok none) ∧
    (∀ (env : Env) (name : String) (pre : List SearchPath) (sp : SearchPath)
      (post : List SearchPath) (d : FsReaderDesc),
      entryResult env name sp = .ok (some d) →
      (∀ x ∈ post, entryResult env name x = .ok none) →
      find_file env false (pre ++ sp :: post) name = .ok (some d)) ∧
    (∀ (env : Env) (name : String) (pre : List SearchPath) (dir : Path)
      (pak : Pack) (d : FsReaderDesc), Pack.file pak name = some d →
      find_file env false
        (pre ++ [SearchPath.Directory dir, SearchPath.Pack pak]) name =
        .ok (some d)) := by
  refine ⟨find_file_all_none, find_file_highest_hit, ?_⟩
  intro env name pre dir pak d h
  have hsplit : pre ++ [SearchPath.Directory dir, SearchPath.Pack pak] =
      (pre ++ [SearchPath.Directory dir]) ++ SearchPath.Pack pak :: [] := by
    simp
  rw [hsplit]
  exact find_file_highest_hit env name (pre ++ [SearchPath.Directory dir])
    (SearchPath.Pack pak) [] d (by simp [entryResult, h])
    (fun x hx => absurd hx (List.not_mem_nil x))

/-- A pack whose directory holds one file `x` at offset 5, size 7. -/
def pakX : Pack :=
  { file_path := ["d", "pak0.pak"],
    file_infos := [{ name := "x", offset := 5, size := 7 }] }

/-- C6 witness: in the stack `[Directory d, Pack pak0]` that `add_game_dir`
builds, the name `x` held by the pack resolves to the pack's bounded reader
even though the directory is also present (and, in `envC1`, holds nothing). -/
theorem c6_resolution_order_witness :
    find_file envC1 false [SearchPath.Directory ["d"], SearchPath.Pack pakX] "x" =
      .ok (some (.fromPack ["d", "pak0.pak"] 5 7)) :=
  c6_resolution_order.2.2 envC1 "x" [] ["d"] pakX
    (.fromPack ["d", "pak0.pak"] 5 7) rfl

/-- C8: with the `-proghack` flag set, resolution over a stack with top entry
`sp` behaves exactly as flag-off resolution over the stack without `sp`: the
single highest-priority entry is excluded and every remaining entry is
consulted in the same order with the same results; with the flag unset no
entry is skipped — the top entry itself is consulted first and its hit is
returned. -/
theorem c8_proghack_skips_exactly_top :
    (∀ (env : Env) (name : String) (sps : List SearchPath) (sp : SearchPath),
      find_file env true (sps ++ [sp]) name = find_file env false sps name) ∧
    (∀ (env : Env) (name : String) (sps : List SearchPath) (sp : SearchPath)
      (d : FsReaderDesc), entryResult env name sp = .ok (some d) →
      find_file env false (sps ++ [sp]) name = .ok (some d)) := by
  constructor
  · intro env name sps sp
    unfold find_file
    rw [List.reverse_append]
    rfl
  · intro env name sps sp d h
    exact find_file_highest_hit env name sps sp [] d h
      fun x hx => absurd hx (List.not_mem_nil x)

/-- C8 witness: on the two-entry stack `[Directory d, Pack pak0]`, the flag
turns resolution into flag-off resolution over `[Directory d]` alone (so `x`
is no longer found), while without the flag the top pack entry is consulted
and yields `x`. -/
theorem c8_proghack_skips_exactly_top_witness :
    find_file envC1 true [SearchPath.Directory ["d"], SearchPath.Pack pakX] "x" =
      find_file envC1 false [SearchPath.Directory ["d"]] "x" ∧
    find_file envC1 false [SearchPath.Directory ["d"], SearchPath.Pack pakX] "x" =
      .ok (some (.fromPack ["d", "pak0.pak"] 5 7)) :=
  ⟨c8_proghack_skips_exactly_top.1 envC1 "x" [SearchPath.Directory ["d"]]
      (SearchPath.Pack pakX),
    c8_proghack_skips_exactly_top.2 envC1 "x" [SearchPath.Directory ["d"]]
      (SearchPath.Pack pakX) (.fromPack ["d", "pak0.pak"] 5 7) rfl⟩

end RQS
